import Mathlib

/-!
Verification of the m3u8 speed-download pipeline (`src/main.py`).

The Python source is shallowly embedded below: pure string manipulation is
translated to Lean functions over `String`/`List Char`; network and
filesystem effects are passed in as explicit oracles; exceptions are
`Except`; the thread-pool coordinator is sequentialized (its per-reference
outcomes do not depend on scheduling) and its bounded-width discipline is
modelled separately as a transition system.
-/

namespace M3u8

/-! ## String primitives modelling Python builtins -/

/-- Model of Python `str.splitlines`: split at line boundaries `\n`, `\r`,
`\r\n`; a trailing terminator does not yield a final empty line. -/
def splitlinesAux : List Char → List Char → List String
  | [], acc => if acc.isEmpty then [] else [⟨acc.reverse⟩]
  | '\r' :: '\n' :: rest, acc => ⟨acc.reverse⟩ :: splitlinesAux rest []
  | '\r' :: rest, acc => ⟨acc.reverse⟩ :: splitlinesAux rest []
  | '\n' :: rest, acc => ⟨acc.reverse⟩ :: splitlinesAux rest []
  | c :: rest, acc => splitlinesAux rest (c :: acc)

/-- `m3u8_content.splitlines()` (src/main.py line 44). -/
def splitlines (s : String) : List String :=
  splitlinesAux s.data []

/-- Model of `line.startswith("#")`: the first character is `#`. -/
def startsWithHash (l : String) : Bool :=
  match l.data with
  | '#' :: _ => true
  | _ => false

/-- The filter of the list comprehension on src/main.py line 45:
`if line and not line.startswith("#")` (Python truthiness of a string is
non-emptiness). -/
def keepLine (l : String) : Bool :=
  !(l == "") && !(startsWithHash l)

/-- Model of `f.endswith(".ts")` (src/main.py line 59). -/
def endsWithTs (f : String) : Bool :=
  match f.data.reverse with
  | 's' :: 't' :: '.' :: _ => true
  | _ => false

/-! ## URL machinery

`urllib.parse.urljoin`, `urllib.parse.urlparse` and `os.path` are standard
library collaborators whose source is not part of this repository; they are
modelled from the spec. -/

/-- A character allowed inside a URL scheme after the first letter. -/
def isSchemeTail (c : Char) : Bool :=
  c.isAlphanum || c == '+' || c == '-' || c == '.'

/-- Split a leading `scheme:` from a character list: returns the scheme
characters and the remainder after the colon, or `none` when the string
does not start with a well-formed scheme. -/
def splitSchemeAux : List Char → List Char → Option (List Char × List Char)
  | [], _ => none
  | ':' :: rest, acc => if acc.isEmpty then none else some (acc.reverse, rest)
  | c :: rest, acc =>
      if (if acc.isEmpty then c.isAlpha else isSchemeTail c) then
        splitSchemeAux rest (c :: acc)
      else none

def splitScheme (s : List Char) : Option (List Char × List Char) :=
  splitSchemeAux s []

/-- Break `afterColon` (what follows `scheme:`) into the `//authority`
part and the path-and-after part. -/
def splitAuthority (afterColon : List Char) : List Char × List Char :=
  match afterColon with
  | '/' :: '/' :: rest => (rest.takeWhile (fun c => c ≠ '/'), rest.dropWhile (fun c => c ≠ '/'))
  | other => ([], other)

/-- Strip a query or fragment from a path. -/
def stripQueryFrag (p : List Char) : List Char :=
  p.takeWhile (fun c => c ≠ '?' && c ≠ '#')

/-- The directory part of a URL path: everything up to and including the
last `/`, or `/` when the path has no slash. -/
def dirPart (p : List Char) : List Char :=
  let d := (p.reverse.dropWhile (fun c => c ≠ '/')).reverse
  if d.isEmpty then ['/'] else d

/-- Modelled from the spec: `urllib.parse.urljoin(base, rel)` resolves a
playlist line as a URL relative to the playlist URL. An empty line yields
the base; a line with its own scheme is absolute and returned unchanged;
a `//host/...` line takes the base scheme; an absolute path replaces the
base path; any other relative line replaces the last segment of the base
path. Dot-segment normalization is not modelled (the playlists at issue
contain no dot segments). -/
def urljoin (base rel : String) : String :=
  if rel = "" then base
  else
    match splitScheme rel.data with
    | some _ => rel
    | none =>
      match splitScheme base.data with
      | none => rel
      | some (scheme, afterColon) =>
        let (auth, pathEtc) := splitAuthority afterColon
        let root : List Char := scheme ++ (':' :: '/' :: '/' :: auth)
        match rel.data with
        | '/' :: '/' :: _ => ⟨scheme ++ (':' :: rel.data)⟩
        | '/' :: _ => ⟨root ++ rel.data⟩
        | _ => ⟨root ++ dirPart (stripQueryFrag pathEtc) ++ rel.data⟩

/-- Modelled from the spec: the path component of
`urllib.parse.urlparse(url)` — what follows the authority, with query and
fragment stripped (src/main.py line 20). -/
def urlparsePath (url : String) : String :=
  match splitScheme url.data with
  | none => ⟨stripQueryFrag url.data⟩
  | some (_, afterColon) => ⟨stripQueryFrag (splitAuthority afterColon).2⟩

/-- Model of `os.path.basename`: the part of a path after the last `/`. -/
def basename (p : String) : String :=
  ⟨(p.data.reverse.takeWhile (fun c => c ≠ '/')).reverse⟩

/-- Modelled from the spec: `os.path.join(folder, name)` for a folder not
ending in the separator and a relative file name, the only shape this
program uses (src/main.py lines 21 and 62). -/
def pathJoin (folder name : String) : String :=
  folder ++ "/" ++ name

/-! ## PlaylistFetcher (src/main.py lines 44 to 45) -/

/-- The lines of the playlist that survive the comprehension filter on
src/main.py line 45. -/
def chunkLines (t : String) : List String :=
  (splitlines t).filter keepLine

/-- `ts_urls` of src/main.py line 45: every kept line resolved against the
playlist URL. -/
def ts_urls (m3u8_url t : String) : List String :=
  (chunkLines t).map (urljoin m3u8_url)

/-! ## ChunkDownloader (src/main.py lines 17 to 31) -/

/-- The network oracle standing for the shared `requests.Session`:
`getText url` models `session.get(url).text`, `getBytes url` models
`session.get(url).content` (chunk bytes stand in as a string); an
`Except.error` models the request raising. -/
structure Net where
  getText : String → Except String String
  getBytes : String → Except String String

/-- The per-chunk result the coordinator observes: `download_ts_segment`
either wrote a file or printed a failure message and returned. -/
inductive Outcome where
  | success (path : String)
  | failure (url : String) (cause : String)
deriving DecidableEq, Repr

/-- The body of the `try:` block of `download_ts_segment` (src/main.py
lines 19 to 28): compute the file name from the URL path, fetch the bytes,
write them; either step may raise. `fsOk path` says whether opening and
writing `path` succeeds; on success the written path is returned. -/
def download_ts_segment_body (net : Net) (fsOk : String → Bool)
    (ts_url output_folder : String) : Except String String :=
  let filename := basename (urlparsePath ts_url)
  let output_path := pathJoin output_folder filename
  match net.getBytes ts_url with
  | Except.error e => Except.error e
  | Except.ok _content =>
      if fsOk output_path then Except.ok output_path
      else Except.error ("could not write " ++ output_path)

/-- `download_ts_segment` (src/main.py lines 17 to 31): the whole body is
wrapped in `try ... except Exception`, so the unit is total — any raise is
captured and turned into a printed failure, never re-raised. -/
def download_ts_segment (net : Net) (fsOk : String → Bool)
    (ts_url output_folder : String) : Outcome :=
  match download_ts_segment_body net fsOk ts_url output_folder with
  | Except.ok p => Outcome.success p
  | Except.error e => Outcome.failure ts_url e

/-- `max_workers` of the `ThreadPoolExecutor` on src/main.py line 48. -/
def executor_max_workers : Nat := 10

/-- The download coordinator (src/main.py lines 48 to 54): every reference
is submitted to the pool and every future is awaited. The pool is
sequentialized here — each unit's outcome depends only on its own
reference and the shared oracles, not on scheduling — so the observed
outcomes are the per-reference outcomes in submission order. -/
def download_all (net : Net) (fsOk : String → Bool)
    (output_folder : String) (urls : List String) : List Outcome :=
  urls.map (fun u => download_ts_segment net fsOk u output_folder)

/-! ## download_m3u8 with its filesystem effects (src/main.py 33 to 56) -/

/-- A filesystem modification performed by the run. -/
inductive Effect where
  | makedirs (dir : String)
  | writeFile (path : String)
deriving DecidableEq, Repr

/-- The write effect of one download outcome: only a successful unit
reaches the `open(output_path, 'wb')` write. -/
def writeEffect : Outcome → Option Effect
  | Outcome.success p => some (Effect.writeFile p)
  | Outcome.failure _ _ => none

/-- `download_m3u8` (src/main.py lines 33 to 56): fetch the playlist text
(line 38, may raise — this propagates, there is no handler), then create
the output folder (line 41), then resolve and download every chunk.
Returns the propagated exception or unit, together with the trace of
filesystem modifications actually performed. -/
def download_m3u8 (net : Net) (fsOk : String → Bool)
    (m3u8_url output_folder : String) : Except String Unit × List Effect :=
  match net.getText m3u8_url with
  | Except.error e => (Except.error e, [])
  | Except.ok content =>
      let outcomes := download_all net fsOk output_folder (ts_urls m3u8_url content)
      (Except.ok (), Effect.makedirs output_folder :: outcomes.filterMap writeEffect)

/-! ## AssemblyListBuilder: create_file_list (src/main.py lines 58 to 64) -/

/-- Python string comparison: lexicographic by code point. -/
def strLeB : List Char → List Char → Bool
  | [], _ => true
  | _ :: _, [] => false
  | a :: as, b :: bs =>
    if a < b then true
    else if b < a then false
    else strLeB as bs

/-- The order Python `sorted` uses on strings. -/
def pyLe (a b : String) : Prop := strLeB a.data b.data = true

instance : DecidableRel pyLe :=
  fun a b => inferInstanceAs (Decidable (strLeB a.data b.data = true))

theorem strLeB_total : ∀ as bs, strLeB as bs = true ∨ strLeB bs as = true
  | [], _ => Or.inl rfl
  | _ :: _, [] => Or.inr rfl
  | a :: as, b :: bs => by
    by_cases hab : a < b
    · exact Or.inl (by simp [strLeB, hab])
    · by_cases hba : b < a
      · exact Or.inr (by simp [strLeB, hba, hab])
      · cases strLeB_total as bs with
        | inl h => exact Or.inl (by simp [strLeB, hab, hba, h])
        | inr h => exact Or.inr (by simp [strLeB, hab, hba, h])

instance : IsTotal String pyLe := ⟨fun a b => strLeB_total a.data b.data⟩

theorem strLeB_trans :
    ∀ as bs cs, strLeB as bs = true → strLeB bs cs = true → strLeB as cs = true
  | [], _, _, _, _ => rfl
  | _ :: _, [], _, h1, _ => by simp [strLeB] at h1
  | _ :: _, _ :: _, [], _, h2 => by simp [strLeB] at h2
  | a :: as, b :: bs, c :: cs, h1, h2 => by
    by_cases hab : a < b
    · by_cases hbc : b < c
      · simp [strLeB, lt_trans hab hbc]
      · by_cases hcb : c < b
        · simp [strLeB, hbc, hcb] at h2
        · have hbc' : b = c := le_antisymm (le_of_not_lt hcb) (le_of_not_lt hbc)
          subst hbc'
          simp [strLeB, hab]
    · by_cases hba : b < a
      · simp [strLeB, hab, hba] at h1
      · have hab' : a = b := le_antisymm (le_of_not_lt hba) (le_of_not_lt hab)
        subst hab'
        simp only [strLeB, if_neg hab, if_neg hba] at h1 ⊢
        by_cases hac : a < c
        · simp [hac]
        · by_cases hca : c < a
          · simp [strLeB, hac, hca] at h2
          · simp only [strLeB, if_neg hac, if_neg hca] at h2 ⊢
            exact strLeB_trans as bs cs h1 h2

instance : IsTrans String pyLe :=
  ⟨fun a b c h1 h2 => strLeB_trans a.data b.data c.data h1 h2⟩

/-- `strLeB` agrees with the lexicographic order on character lists. -/
theorem strLeB_iff_not_lex :
    ∀ as bs : List Char, strLeB as bs = true ↔ ¬ List.Lex (· < ·) bs as
  | [], bs => by
    constructor
    · intro _ h
      cases h
    · intro _
      rfl
  | a :: as, [] => by
    constructor
    · intro h
      simp [strLeB] at h
    · intro h
      exact absurd List.Lex.nil h
  | a :: as, b :: bs => by
    by_cases hba : b < a
    · simp only [strLeB, if_neg (asymm hba), if_pos hba]
      constructor
      · intro h
        exact absurd h Bool.false_ne_true
      · intro h
        exact absurd (List.Lex.rel hba) h
    · by_cases hab : a < b
      · simp only [strLeB, if_pos hab, true_iff]
        intro h
        cases h with
        | cons _ => exact absurd hab (lt_irrefl a)
        | rel h' => exact hba h'
      · have hab' : a = b := le_antisymm (le_of_not_lt hba) (le_of_not_lt hab)
        subst hab'
        simp only [strLeB, if_neg hab, if_neg hba]
        rw [strLeB_iff_not_lex as bs]
        constructor
        · intro h hc
          cases hc with
          | cons h' => exact h h'
          | rel h' => exact hba h'
        · intro h hc
          exact h (List.Lex.cons hc)

/-- `pyLe` is exactly the `String` order: Python sorts strings the way
`String` order sorts them. -/
theorem pyLe_iff (a b : String) : pyLe a b ↔ a ≤ b := by
  rw [pyLe, strLeB_iff_not_lex, String.le_iff_toList_le, ← not_lt]
  exact Iff.rfl

/-- `sorted([f for f in os.listdir(output_folder) if f.endswith('.ts')])`
(src/main.py line 59): Python `sorted` returns the unique weakly
increasing permutation under `pyLe`. -/
def tsFilesSorted (listing : List String) : List String :=
  List.insertionSort pyLe (listing.filter endsWithTs)

/-- The single-quote character (code point 39) used by the manifest
format. -/
def quoteChar : Char := Char.ofNat 39

/-- One manifest line (src/main.py line 62):
`f"file \x7bos.path.join(output_folder, ts_file)\x7d"` wrapped in single
quotes. -/
def fmtLine (output_folder ts_file : String) : String :=
  "file " ++ String.singleton quoteChar ++ pathJoin output_folder ts_file
    ++ String.singleton quoteChar

/-- The lines written to `file_list.txt` by `create_file_list`. -/
def manifestLines (listing : List String) (output_folder : String) : List String :=
  (tsFilesSorted listing).map (fmtLine output_folder)

/-- The filesystem state `create_file_list` touches: the listing of the
output folder it reads, and the content of `file_list.txt` (written in the
current directory, not in the output folder). -/
structure FsState where
  outputListing : List String
  fileListContent : Option (List String)
deriving DecidableEq, Repr

/-- What one call of `create_file_list` produces. `ret` is the Python
return value: the function is annotated `-> None` and has no return
statement, so it is always `none`. -/
structure CflResult where
  state : FsState
  printed : String
  ret : Option Nat
deriving DecidableEq, Repr

/-- `create_file_list(output_folder)` with the default
`list_file_name = 'file_list.txt'`, the only call shape the script uses
(src/main.py lines 58 to 64): write the sorted manifest and print the
count of files listed. -/
def create_file_list (s : FsState) (output_folder : String) : CflResult :=
  let ts_files := tsFilesSorted s.outputListing
  { state := { s with fileListContent := some (ts_files.map (fmtLine output_folder)) },
    printed := "Created file_list.txt with " ++ toString ts_files.length
      ++ " files listed.",
    ret := none }

/-! ## EncoderInvoker: execute_ffmpeg_command (src/main.py lines 66 to 92) -/

/-- The ffmpeg argument list built on src/main.py lines 67 to 85. -/
def ffmpegCommand (input_file output_file : String) (compress : Bool) : List String :=
  (["ffmpeg", "-f", "concat", "-safe", "0", "-i", input_file]
    ++ (if compress then
          ["-c:v", "libx264", "-crf", "23", "-preset", "medium",
           "-c:a", "aac", "-b:a", "128k"]
        else ["-c", "copy"]))
    ++ [output_file]

/-- Python `subprocess.CalledProcessError` as raised by
`subprocess.run(..., check=True)`: it carries the exit status; `stderr` is
`None` whenever the run did not capture output, and src/main.py line 88
passes `capture_output=False`. -/
structure CalledProcessError where
  returncode : Int
  stderr : Option String
deriving DecidableEq, Repr

/-- `subprocess.run(command, check=True, capture_output=False, text=True)`
(src/main.py line 88), given the exit status of the external process:
a non-zero status raises `CalledProcessError` with `stderr = none`. -/
def subprocess_run (exitStatus : Int) : Except CalledProcessError Unit :=
  if exitStatus = 0 then Except.ok ()
  else Except.error { returncode := exitStatus, stderr := none }

/-- Render an `Option String` the way a Python f-string renders the value
(`None` for the null value). -/
def pyOptionStr : Option String → String
  | none => "None"
  | some s => s

/-- `execute_ffmpeg_command` (src/main.py lines 66 to 92): build the
command, run it, and on `CalledProcessError` print the error and the
(never captured) stderr. The `except` clause makes the function total:
it returns its printed lines and never re-raises. `runExit` is the oracle
giving the external process exit status for a command line. -/
def execute_ffmpeg_command (runExit : List String → Int)
    (input_file output_file : String) (compress : Bool) : List String :=
  let command := ffmpegCommand input_file output_file compress
  match subprocess_run (runExit command) with
  | Except.ok _ => ["Successfully created " ++ output_file]
  | Except.error e =>
      ["Error executing ffmpeg command: returned non-zero exit status "
          ++ toString e.returncode ++ ".",
       "ffmpeg stderr output: " ++ pyOptionStr e.stderr]

/-! ## The `__main__` block (src/main.py lines 94 to 109) -/

/-- The script body after argument parsing: download (an uncaught fetch
exception aborts the interpreter, which then exits with status 1), build
the file list, run ffmpeg (total: its handler swallows the encode
failure), clean up, and fall off the end (Python then exits with
status 0). Returns the process exit status. -/
def script_exit (net : Net) (fsOk : String → Bool)
    (runExit : List String → Int) (url output_file : String)
    (compress : Bool) : Int :=
  match (download_m3u8 net fsOk url "output").1 with
  | Except.error _ => 1
  | Except.ok _ =>
      let _msgs := execute_ffmpeg_command runExit "file_list.txt" output_file compress
      0

/-! ## The bounded worker pool (src/main.py line 48)

`ThreadPoolExecutor` is a standard library collaborator; its scheduling
discipline is modelled from the spec as a transition system: a pool state
counts pending, running and completed units; a pending unit may start only
while fewer than `max_workers` units are running. -/

/-- Modelled from the spec: the instantaneous state of the worker pool. -/
structure PoolState where
  pending : Nat
  running : Nat
  completed : Nat
deriving DecidableEq, Repr

/-- Modelled from the spec: one scheduling step of a pool of width `m` —
start a pending unit while fewer than `m` run, or finish a running
unit. -/
inductive PoolStep (m : Nat) : PoolState → PoolState → Prop where
  | start (p r c : Nat) : r < m →
      PoolStep m ⟨p + 1, r, c⟩ ⟨p, r + 1, c⟩
  | finish (p r c : Nat) :
      PoolStep m ⟨p, r + 1, c⟩ ⟨p, r, c + 1⟩

/-- The states a width-`m` pool can reach from `init`. -/
inductive PoolReach (m : Nat) (init : PoolState) : PoolState → Prop where
  | refl : PoolReach m init init
  | step {s t : PoolState} : PoolReach m init s → PoolStep m s t →
      PoolReach m init t

/-! ## Concrete oracles for evaluating the model on inputs -/

/-- A network where every request succeeds. -/
def netOk : Net :=
  { getText := fun _ => Except.ok "seg000.ts\nseg001.ts\nseg002.ts",
    getBytes := fun _ => Except.ok "bytes" }

/-- A network where the playlist fetch succeeds and every chunk fetch
succeeds except `bad.ts`. -/
def netOneBad : Net :=
  { getText := fun _ => Except.ok "good.ts\nbad.ts",
    getBytes := fun url =>
      if url == "https://host/path/bad.ts" then
        Except.error "simulated network error"
      else Except.ok "bytes" }

/-- A network where every request raises. -/
def netDown : Net :=
  { getText := fun _ => Except.error "connection refused",
    getBytes := fun _ => Except.error "connection refused" }

/-- A filesystem where every write succeeds. -/
def allWritesOk : String → Bool := fun _ => true

/-- An external transcoder that always exits with status 1. -/
def ffmpegFails : List String → Int := fun _ => 1

/-! ## Claim theorems -/

/-- C1: for every playlist text, splitting it into lines and keeping
exactly the non-empty lines that do not start with `#` produces exactly as
many chunk references as there are non-directive, non-empty lines, the
kept lines are a sublist of the playlist lines (original order), and a
blank or directive line is never among them, at any position and in any
mixture. -/
theorem playlist_filter_exact (u t : String) :
    (ts_urls u t).length = (splitlines t).countP keepLine ∧
    List.Sublist (chunkLines t) (splitlines t) ∧
    ∀ l ∈ splitlines t, (l = "" ∨ startsWithHash l = true) → l ∉ chunkLines t := by
  refine ⟨?_, List.filter_sublist _, ?_⟩
  · simp [ts_urls, chunkLines, List.countP_eq_length_filter]
  · intro l _ hl hc
    have hkeep : keepLine l = true := (List.mem_filter.mp hc).2
    cases hl with
    | inl h =>
        subst h
        simp [keepLine] at hkeep
    | inr h =>
        simp [keepLine, h] at hkeep

theorem playlist_filter_exact_witness :
    "#EXTM3U" ∉ chunkLines "#EXTM3U\nseg0.ts\n\nseg1.ts" :=
  (playlist_filter_exact "https://host/x.m3u8" "#EXTM3U\nseg0.ts\n\nseg1.ts").2.2
    "#EXTM3U" (by decide) (Or.inr (by decide))

/-- C2: a failing chunk download never raises past the per-chunk unit: the
`try/except` in `download_ts_segment` turns the raised error into a
`failure` outcome, the coordinator still completes with one outcome per
reference, and every reference's outcome (the failing one included) is
observed in the batch. -/
theorem download_failure_isolation (net : Net) (fsOk : String → Bool)
    (output_folder : String) (urls : List String) (u e : String)
    (hu : u ∈ urls)
    (hfail : download_ts_segment_body net fsOk u output_folder = Except.error e) :
    download_ts_segment net fsOk u output_folder = Outcome.failure u e ∧
    (download_all net fsOk output_folder urls).length = urls.length ∧
    ∀ v ∈ urls, download_ts_segment net fsOk v output_folder
        ∈ download_all net fsOk output_folder urls := by
  refine ⟨?_, by simp [download_all], ?_⟩
  · simp [download_ts_segment, hfail]
  · intro v hv
    exact List.mem_map_of_mem _ hv

theorem download_failure_isolation_witness :
    download_ts_segment netOneBad allWritesOk "https://host/path/bad.ts" "output"
      = Outcome.failure "https://host/path/bad.ts" "simulated network error" ∧
    (download_all netOneBad allWritesOk "output"
        ["https://host/path/good.ts", "https://host/path/bad.ts"]).length
      = (["https://host/path/good.ts", "https://host/path/bad.ts"] : List String).length ∧
    ∀ v ∈ (["https://host/path/good.ts", "https://host/path/bad.ts"] : List String),
      download_ts_segment netOneBad allWritesOk v "output"
        ∈ download_all netOneBad allWritesOk "output"
            ["https://host/path/good.ts", "https://host/path/bad.ts"] :=
  download_failure_isolation netOneBad allWritesOk "output"
    ["https://host/path/good.ts", "https://host/path/bad.ts"]
    "https://host/path/bad.ts" "simulated network error" (by decide) rfl

/-- C6: every kept playlist line becomes that line resolved against the
playlist URL; an already-absolute line (one carrying its own scheme) is
left as itself, and the relative entries of the spec's example resolve to
the sibling URLs of the playlist. -/
theorem chunk_reference_resolution (u rel : String)
    (h : (splitScheme rel.data).isSome = true) :
    urljoin u rel = rel ∧
    ts_urls "https://host/path/playlist.m3u8" "seg000.ts\nseg001.ts\nseg002.ts"
      = ["https://host/path/seg000.ts", "https://host/path/seg001.ts",
         "https://host/path/seg002.ts"] ∧
    ∀ t, ts_urls u t = (chunkLines t).map (urljoin u) := by
  refine ⟨?_, by decide, fun t => rfl⟩
  obtain ⟨v, hv⟩ := Option.isSome_iff_exists.mp h
  have hne : rel ≠ "" := by
    intro he
    subst he
    exact absurd hv (by simp [splitScheme, splitSchemeAux])
  simp [urljoin, hne, hv]

theorem chunk_reference_resolution_witness :
    urljoin "https://host/path/playlist.m3u8" "https://other/x.ts"
      = "https://other/x.ts" :=
  (chunk_reference_resolution "https://host/path/playlist.m3u8"
    "https://other/x.ts" (by decide)).1

theorem string_data_inj {a b : String} (h : a.data = b.data) : a = b := by
  cases a
  cases b
  exact congrArg String.mk h

/-- Two manifest lines built for the same folder agree only on the same
file name. -/
theorem fmtLine_inj (folder : String) {a b : String}
    (h : fmtLine folder a = fmtLine folder b) : a = b := by
  have hd := congrArg String.data h
  simp only [fmtLine, pathJoin, String.data_append, List.append_assoc] at hd
  have h1 := List.append_cancel_left hd
  have h2 := List.append_cancel_left h1
  have h3 := List.append_cancel_left h2
  have h4 := List.append_cancel_left h3
  exact string_data_inj (List.append_cancel_right h4)

/-- C3: the manifest has one line per `.ts` file of the directory listing,
its lines are the lexicographically sorted file names wrapped in the
concatenation-directive format, and rebuilding it from the unchanged
directory yields an identical manifest. -/
theorem create_file_list_manifest (s : FsState) (folder : String) :
    (manifestLines s.outputListing folder).length
        = (s.outputListing.filter endsWithTs).length ∧
    (tsFilesSorted s.outputListing).Perm (s.outputListing.filter endsWithTs) ∧
    List.Sorted (· ≤ ·) (tsFilesSorted s.outputListing) ∧
    manifestLines s.outputListing folder
        = (tsFilesSorted s.outputListing).map (fmtLine folder) ∧
    (∀ line ∈ manifestLines s.outputListing folder,
        ∃ f, f ∈ s.outputListing ∧ endsWithTs f = true
          ∧ line = "file " ++ String.singleton quoteChar ++ pathJoin folder f
              ++ String.singleton quoteChar) ∧
    (create_file_list (create_file_list s folder).state folder).state.fileListContent
        = (create_file_list s folder).state.fileListContent := by
  refine ⟨?_, List.perm_insertionSort pyLe _, ?_, rfl, ?_, rfl⟩
  · simp [manifestLines, tsFilesSorted, List.length_insertionSort]
  · exact (List.sorted_insertionSort pyLe _).imp fun h => (pyLe_iff _ _).mp h
  · intro line hline
    obtain ⟨f, hf, hline⟩ := List.mem_map.mp hline
    have hf' : f ∈ s.outputListing.filter endsWithTs :=
      (List.mem_insertionSort pyLe).mp hf
    exact ⟨f, (List.mem_filter.mp hf').1, (List.mem_filter.mp hf').2, hline.symm⟩

theorem create_file_list_manifest_witness :
    ∃ f, f ∈ (⟨["b.ts", "a.ts"], none⟩ : FsState).outputListing
      ∧ endsWithTs f = true
      ∧ fmtLine "output" "a.ts"
          = "file " ++ String.singleton quoteChar ++ pathJoin "output" f
              ++ String.singleton quoteChar :=
  (create_file_list_manifest ⟨["b.ts", "a.ts"], none⟩ "output").2.2.2.2.1
    (fmtLine "output" "a.ts") (by decide)

/-- C7 counterexample: on the directory listing `["a.ts", "b.ts"]` the
builder lists two files but its return value is `none` (the Python
function is annotated `-> None` and has no return statement), not the
count 2 the claim asserts. -/
theorem create_file_list_ret_counterexample :
    (create_file_list ⟨["a.ts", "b.ts"], none⟩ "output").ret = none ∧
    ((["a.ts", "b.ts"] : List String).filter endsWithTs).length = 2 ∧
    (create_file_list ⟨["a.ts", "b.ts"], none⟩ "output").ret ≠ some 2 := by
  exact ⟨rfl, rfl, by decide⟩

/-- C7 amended: `create_file_list` returns `None`; the count of files it
listed is reported only in its printed message. -/
theorem create_file_list_reports_count (s : FsState) (folder : String) :
    (create_file_list s folder).ret = none ∧
    (create_file_list s folder).printed
        = "Created file_list.txt with "
            ++ toString (s.outputListing.filter endsWithTs).length
            ++ " files listed." := by
  refine ⟨rfl, ?_⟩
  simp [create_file_list, tsFilesSorted, List.length_insertionSort]

/-- C9: every manifest line names a `.ts` file; a successfully downloaded
chunk whose basename lacks the `.ts` extension is still written to the
working directory (its download succeeds and yields the written path) but
its name is excluded from the manifest and from the set the reported count
measures. -/
theorem manifest_excludes_non_ts (listing : List String) (folder f : String)
    (hmem : f ∈ listing) (hts : endsWithTs f = false) :
    (∀ line ∈ manifestLines listing folder,
        ∃ g, g ∈ listing ∧ endsWithTs g = true ∧ line = fmtLine folder g) ∧
    fmtLine folder f ∉ manifestLines listing folder ∧
    f ∉ listing.filter endsWithTs ∧
    ∀ (net : Net) (fsOk : String → Bool) (url bytes : String),
      net.getBytes url = Except.ok bytes →
      fsOk (pathJoin folder (basename (urlparsePath url))) = true →
      download_ts_segment net fsOk url folder
        = Outcome.success (pathJoin folder (basename (urlparsePath url))) := by
  have hlines : ∀ line ∈ manifestLines listing folder,
      ∃ g, g ∈ listing ∧ endsWithTs g = true ∧ line = fmtLine folder g := by
    intro line hline
    obtain ⟨g, hg, hline⟩ := List.mem_map.mp hline
    have hg' : g ∈ listing.filter endsWithTs :=
      (List.mem_insertionSort pyLe).mp hg
    exact ⟨g, (List.mem_filter.mp hg').1, (List.mem_filter.mp hg').2, hline.symm⟩
  refine ⟨hlines, ?_, ?_, ?_⟩
  · intro hc
    obtain ⟨g, _, hgts, heq⟩ := hlines _ hc
    rw [fmtLine_inj folder heq] at hts
    rw [hts] at hgts
    cases hgts
  · intro hc
    rw [(List.mem_filter.mp hc).2] at hts
    cases hts
  · intro net fsOk url bytes hbytes hfs
    simp [download_ts_segment, download_ts_segment_body, hbytes, hfs]

theorem manifest_excludes_non_ts_witness :
    fmtLine "output" "seg.bin" ∉ manifestLines ["seg.bin", "a.ts"] "output" :=
  (manifest_excludes_non_ts ["seg.bin", "a.ts"] "output" "seg.bin"
    (by decide) (by decide)).2.1

/-- C4: the transcoder command line opens with the concat demuxer reading
the manifest in trusted-path mode, continues with the re-encode codec,
quality, preset and audio bitrate flags when re-encoding is requested and
with stream-copy otherwise, and ends with the output file as the final
positional argument. -/
theorem ffmpeg_command_shape (input_file output_file : String) (compress : Bool) :
    ffmpegCommand input_file output_file false
      = ["ffmpeg", "-f", "concat", "-safe", "0", "-i", input_file,
         "-c", "copy", output_file] ∧
    ffmpegCommand input_file output_file true
      = ["ffmpeg", "-f", "concat", "-safe", "0", "-i", input_file,
         "-c:v", "libx264", "-crf", "23", "-preset", "medium",
         "-c:a", "aac", "-b:a", "128k", output_file] ∧
    (ffmpegCommand input_file output_file compress).take 7
      = ["ffmpeg", "-f", "concat", "-safe", "0", "-i", input_file] ∧
    (ffmpegCommand input_file output_file compress).getLast? = some output_file := by
  refine ⟨rfl, rfl, ?_, ?_⟩ <;> cases compress <;> rfl

/-- C5 counterexample: with the transcoder exiting with status 1 the
raised `CalledProcessError` carries no diagnostic stream (`stderr` is
`None`, since output is not captured), `execute_ffmpeg_command` swallows
it (it returns its printed error lines instead of failing), and the whole
process exits with status 0, not non-zero. -/
theorem encode_failure_counterexample :
    subprocess_run 1 = Except.error { returncode := 1, stderr := none } ∧
    execute_ffmpeg_command ffmpegFails "file_list.txt" "out.mp4" false
      = ["Error executing ffmpeg command: returned non-zero exit status 1.",
         "ffmpeg stderr output: None"] ∧
    script_exit netOk allWritesOk ffmpegFails
      "https://host/path/playlist.m3u8" "out.mp4" false = 0 := by
  exact ⟨rfl, rfl, rfl⟩

/-- C5 amended: when the transcoder exits non-zero, `subprocess.run`
raises a `CalledProcessError` carrying the exit status but no diagnostic
stream (output is not captured, so `stderr` is `None`);
`execute_ffmpeg_command` catches it and only prints the error, so the
failure is not terminal for the run and the process exit status is 0. -/
theorem encode_failure_swallowed (net : Net) (fsOk : String → Bool)
    (runExit : List String → Int) (url output_file playlist : String)
    (compress : Bool) (rc : Int)
    (hfetch : net.getText url = Except.ok playlist)
    (hrc : rc ≠ 0) (hrun : ∀ cmd, runExit cmd = rc) :
    subprocess_run rc = Except.error { returncode := rc, stderr := none } ∧
    execute_ffmpeg_command runExit "file_list.txt" output_file compress
      = ["Error executing ffmpeg command: returned non-zero exit status "
           ++ toString rc ++ ".",
         "ffmpeg stderr output: None"] ∧
    script_exit net fsOk runExit url output_file compress = 0 := by
  refine ⟨?_, ?_, ?_⟩
  · simp [subprocess_run, hrc]
  · simp [execute_ffmpeg_command, subprocess_run, hrun, hrc, pyOptionStr]
  · simp [script_exit, download_m3u8, hfetch]

theorem encode_failure_swallowed_witness :
    subprocess_run 2 = Except.error { returncode := 2, stderr := none } ∧
    execute_ffmpeg_command (fun _ => 2) "file_list.txt" "out.mp4" true
      = ["Error executing ffmpeg command: returned non-zero exit status "
           ++ toString (2 : Int) ++ ".",
         "ffmpeg stderr output: None"] ∧
    script_exit netOk allWritesOk (fun _ => 2)
      "https://host/path/playlist.m3u8" "out.mp4" true = 0 :=
  encode_failure_swallowed netOk allWritesOk (fun _ => 2)
    "https://host/path/playlist.m3u8" "out.mp4"
    "seg000.ts\nseg001.ts\nseg002.ts" true 2 rfl (by decide) (fun _ => rfl)

/-- C8: the chunk downloads run on a bounded pool whose width the script
fixes at the default 10; from an initial state with every chunk pending
and nothing running, every reachable pool state has at most the width in
flight simultaneously. -/
theorem pool_running_bounded (m n : Nat) (s : PoolState)
    (h : PoolReach m ⟨n, 0, 0⟩ s) :
    s.running ≤ m ∧ executor_max_workers = 10 := by
  refine ⟨?_, rfl⟩
  induction h with
  | refl => exact Nat.zero_le m
  | step _ hstep ih =>
    cases hstep with
    | start p r c hlt => exact hlt
    | finish p r c => exact Nat.le_of_succ_le ih

theorem pool_running_bounded_witness :
    (⟨9, 1, 0⟩ : PoolState).running ≤ 3 ∧ executor_max_workers = 10 :=
  pool_running_bounded 3 10 ⟨9, 1, 0⟩
    (PoolReach.step PoolReach.refl (PoolStep.start 9 0 0 (by decide)))

/-- C10: when the playlist fetch raises, `download_m3u8` propagates the
exception with an empty filesystem trace — the working directory is never
created and no chunk file is written, because `os.makedirs` and all
downloads come after the fetch — and the interpreter dies with exit
status 1. -/
theorem fetch_failure_no_fs_effects (net : Net) (fsOk : String → Bool)
    (url folder e : String) (hfetch : net.getText url = Except.error e) :
    download_m3u8 net fsOk url folder = (Except.error e, []) ∧
    Effect.makedirs folder ∉ (download_m3u8 net fsOk url folder).2 ∧
    (∀ p, Effect.writeFile p ∉ (download_m3u8 net fsOk url folder).2) ∧
    ∀ (runExit : List String → Int) (output_file : String) (compress : Bool),
      script_exit net fsOk runExit url output_file compress = 1 := by
  refine ⟨?_, ?_, ?_, ?_⟩
  · simp [download_m3u8, hfetch]
  · simp [download_m3u8, hfetch]
  · intro p
    simp [download_m3u8, hfetch]
  · intro runExit output_file compress
    simp [script_exit, download_m3u8, hfetch]

theorem fetch_failure_no_fs_effects_witness :
    download_m3u8 netDown allWritesOk "https://host/path/playlist.m3u8" "output"
      = (Except.error "connection refused", []) :=
  (fetch_failure_no_fs_effects netDown allWritesOk
    "https://host/path/playlist.m3u8" "output" "connection refused" rfl).1

end M3u8



